import Mathlib

/-!
Verification of the bulk-execution engine of the `agency` repository.

The development shallowly embeds the four source files:

* `src/testing/executor/executor_traits/executors.hpp` — the host reference
  executors (`bulk_synchronous_executor`, `bulk_asynchronous_executor`,
  `bulk_continuation_executor`).  The mutable `(result, shared)` pair that the
  C++ code threads by reference through `f` is modelled by explicit state
  passing: `f : ℕ → ρ × σ → ρ × σ`.  Each entry point also returns the list of
  observable events (factory calls and invocations of `f`) in the order the
  code performs them.  The recursive fork-join of the continuation executor
  spawns concurrent tasks, so the order in which the agents run is not fixed
  by the code; the set of possible invocation orders is captured by the
  inductive predicate `bulk_continuation_executor.FJSched`, and the executor's
  result is computed from one such schedule.
* `src/agency/cuda/grid_executor.hpp` — the shared-argument marshaling
  functors, the dispatch of `bulk_async_with_shared_args` /
  `bulk_invoke_with_shared_args` on the `ignore_t` sentinel (modelled as
  `Option`, `none` standing for `agency::detail::ignore`), `max_shape` with
  its device switching (the active device is threaded explicitly; the two
  fallible attribute queries are injected as `Option ℕ` parameters, `none`
  meaning the CUDA call returns an error and `throw_on_error` throws), and the
  flattening adapter (`flattened_grid_executor_functor`, `partition`).
* `src/agency/detail/algorithm/copy.hpp` — both `detail::copy` overloads,
  with iterators modelled as natural-number addresses into a memory `ℕ → α`.
-/

/-- Observable events of a host reference executor run: calls of the result
factory and of the shared factory, and invocations of the user function `f`
with a given index. -/
inductive Event where
  | callResultFactory
  | callSharedFactory
  | invoke (i : ℕ)
deriving DecidableEq

/-- Boolean test for `Event.callResultFactory` (instrumentation helper). -/
def Event.isResultFactoryCall : Event → Bool
  | Event.callResultFactory => true
  | _ => false

/-- Boolean test for `Event.callSharedFactory` (instrumentation helper). -/
def Event.isSharedFactoryCall : Event → Bool
  | Event.callSharedFactory => true
  | _ => false

/-- Boolean test for `Event.invoke` (instrumentation helper). -/
def Event.isInvoke : Event → Bool
  | Event.invoke _ => true
  | _ => false

namespace bulk_synchronous_executor

/-- Embedding of `bulk_synchronous_executor::bulk_execute` (executors.hpp,
lines 155-168): construct `result` with the result factory and `shared_parm`
with the shared factory, run `f(i, result, shared_parm)` for `i = 0, …, n-1`
in order (a `for` loop over the mutable pair, modelled as a left fold), and
return the result.  The second component is the event trace: one result
factory call, one shared factory call, then the `n` invocations in loop
order. -/
def bulk_execute {ρ σ : Type} (f : ℕ → ρ × σ → ρ × σ) (n : ℕ)
    (result_factory : ℕ → ρ) (shared_factory : ℕ → σ) : ρ × List Event :=
  let result := result_factory n
  let shared_parm := shared_factory n
  (((List.range n).foldl (fun st i => f i st) (result, shared_parm)).1,
    Event.callResultFactory :: Event.callSharedFactory ::
      (List.range n).map Event.invoke)

end bulk_synchronous_executor

namespace bulk_asynchronous_executor

/-- Embedding of `bulk_asynchronous_executor::bulk_async_execute`
(executors.hpp, lines 175-193): the whole loop body of the synchronous
executor is handed to one background task (`std::async`); the task constructs
`result` and `shared_parm` with the factories, runs the same sequential loop,
and the returned future carries the result.  Scheduling aside, the
computation is the same fold; the event trace records the factory calls and
invocations performed inside the task. -/
def bulk_async_execute {ρ σ : Type} (f : ℕ → ρ × σ → ρ × σ) (n : ℕ)
    (result_factory : ℕ → ρ) (shared_factory : ℕ → σ) : ρ × List Event :=
  let result := result_factory n
  let shared_parm := shared_factory n
  (((List.range n).foldl (fun st i => f i st) (result, shared_parm)).1,
    Event.callResultFactory :: Event.callSharedFactory ::
      (List.range n).map Event.invoke)

end bulk_asynchronous_executor

namespace bulk_continuation_executor

/-- `Interleave l r s`: `s` is a merge of `l` and `r` that preserves the
relative order of each; the possible observable orders of two streams of
events produced by concurrently running tasks. -/
inductive Interleave {α : Type} : List α → List α → List α → Prop where
  | nil : Interleave [] [] []
  | left {x : α} {xs ys zs : List α} :
      Interleave xs ys zs → Interleave (x :: xs) ys (x :: zs)
  | right {y : α} {xs ys zs : List α} :
      Interleave xs ys zs → Interleave xs (y :: ys) (y :: zs)

/-- `Interleave3 l m r s`: `s` is an order-preserving merge of the three
streams `l`, `m` and `r`. -/
def Interleave3 {α : Type} (l m r s : List α) : Prop :=
  ∃ t, Interleave l r t ∧ Interleave t m s

/-- `FJSched first last s`: `s` is a possible order in which the recursive
fork-join of `bulk_continuation_executor` invokes the agents of `[first,
last)`.  This is the common shape of `bulk_then_execute_impl` (executors.hpp,
lines 31-72 and 74-121, where `first = 0`, `last = n` and `mid = n / 2 =
(0 + n) / 2`) and of the private helper `async(f, first, last)` (lines
124-148, `mid = (first + last) / 2`): the current task spawns a background
task for `[first, mid)` only when that range is non-empty (guard `first <
mid`; an empty range contributes no invocations, the `empty` case below),
spawns a background task for `[mid + 1, last)` only when non-empty (guard
`mid + 1 < last`), invokes the midpoint agent `mid` directly, and `wait`s on
both sub-futures before returning.  The three parts run concurrently, so any
order-preserving interleaving of a left schedule, `[mid]` and a right
schedule can be observed. -/
inductive FJSched : ℕ → ℕ → List ℕ → Prop where
  | empty {first last : ℕ} : last ≤ first → FJSched first last []
  | node {first last : ℕ} {l r s : List ℕ} :
      first < last →
      FJSched first ((first + last) / 2) l →
      FJSched ((first + last) / 2 + 1) last r →
      Interleave3 l [(first + last) / 2] r s →
      FJSched first last s

/-- Embedding of `bulk_continuation_executor::bulk_then_execute` via
`bulk_then_execute_impl` (executors.hpp, lines 31-72 for the non-void
predecessor and 74-121 for the void predecessor; the predecessor future is
already satisfied and, in the non-void case, merely adds a constant argument
to every invocation of `f`, so it is elided).  When `n > 0` the continuation
constructs `result` and `shared_parameter` with the factories on the root
task's stack and runs the fork-join, whose invocation order is one schedule
`s` with `FJSched 0 n s`; both sub-futures are waited on before the future is
made ready, so the result incorporates every invocation of `s`.  When `n = 0`
the function returns `make_ready_future(result_factory(n))` without touching
the shared factory. -/
def bulk_then_execute {ρ σ : Type} (f : ℕ → ρ × σ → ρ × σ) (n : ℕ)
    (result_factory : ℕ → ρ) (shared_factory : ℕ → σ) (s : List ℕ) :
    ρ × List Event :=
  if 0 < n then
    let result := result_factory n
    let shared_parameter := shared_factory n
    ((s.foldl (fun st i => f i st) (result, shared_parameter)).1,
      Event.callResultFactory :: Event.callSharedFactory :: s.map Event.invoke)
  else
    (result_factory n, [Event.callResultFactory])

end bulk_continuation_executor

/-- Observable events of one CUDA thread block (inner group) executing a
marshaled function: construction of the inner shared object by agent `j`,
a `__syncthreads()` barrier, invocation of the wrapped `f_` by agent `j`,
and destruction of the inner shared object by agent `j`. -/
inductive SharedEvent where
  | construct (j : ℕ)
  | barrier
  | use (j : ℕ)
  | destroy (j : ℕ)
deriving DecidableEq

/-- Boolean test for `SharedEvent.construct` (instrumentation helper). -/
def SharedEvent.isConstruct : SharedEvent → Bool
  | SharedEvent.construct _ => true
  | _ => false

/-- Boolean test for `SharedEvent.barrier` (instrumentation helper). -/
def SharedEvent.isBarrier : SharedEvent → Bool
  | SharedEvent.barrier => true
  | _ => false

/-- Boolean test for `SharedEvent.destroy` (instrumentation helper). -/
def SharedEvent.isDestroy : SharedEvent → Bool
  | SharedEvent.destroy _ => true
  | _ => false

namespace function_with_shared_arguments

/-- Embedding of `function_with_shared_arguments<Function, OuterSharedType,
InnerSharedType>::operator()` (grid_executor.hpp, lines 48-72; the
inner-shared-only specialization at lines 89-114 runs the identical
protocol) across one inner group (thread block) of `m` agents with inner
indices `idx[1] = 0, …, m-1`.  Every agent runs: `if(idx[1] == 0)
inner_param.construct(inner_shared_init_); __syncthreads(); f_(idx,
shared_params); __syncthreads(); if(idx[1] == 0) inner_param.destroy();`.
Because `__syncthreads()` is a group-wide barrier, every event of the phase
before a barrier precedes every event of the phase after it, so the block's
event trace is the concatenation of the three phases (the interleaving
within one phase does not affect which events occur): the constructions
(performed only by the agent whose inner index is `0`), a barrier, the `m`
invocations of the wrapped function, a barrier, and the destructions
(again only by the agent with inner index `0`). -/
def innerGroupTrace (m : ℕ) : List SharedEvent :=
  ((List.range m).filterMap fun j =>
      if j = 0 then some (SharedEvent.construct j) else none)
    ++ [SharedEvent.barrier]
    ++ ((List.range m).map SharedEvent.use)
    ++ [SharedEvent.barrier]
    ++ ((List.range m).filterMap fun j =>
      if j = 0 then some (SharedEvent.destroy j) else none)

/-- Embedding of the outer-shared-only specialization
`function_with_shared_arguments<Function, OuterSharedType, ignore_t>
::operator()` (grid_executor.hpp, lines 130-137): every agent directly
invokes `f_` with a reference to the heap-resident outer shared object; no
shared-memory object is constructed and no barrier is executed. -/
def outerOnlyGroupTrace (m : ℕ) : List SharedEvent :=
  (List.range m).map SharedEvent.use

end function_with_shared_arguments

namespace basic_grid_executor

/-- The function object a `basic_grid_executor` bulk entry point hands to the
underlying launch: either the user function unchanged, or one of the three
`function_with_shared_arguments` wrappers (grid_executor.hpp, lines 38-141).
The heap allocation of the outer shared object (`detail::make_unique`) is
elided; the wrapper carries the outer argument's value and the inner
argument's initial value, as the C++ wrapper carries a pointer and the
initial value. -/
inductive GridFunction (F T1 T2 : Type) where
  | plain (f : F)
  | withBoth (f : F) (outer_shared_arg : T1) (inner_shared_arg : T2)
  | withInner (f : F) (inner_shared_arg : T2)
  | withOuter (f : F) (outer_shared_arg : T1)
deriving DecidableEq

/-- Embedding of the four overloads of
`basic_grid_executor::bulk_async_with_shared_args` (grid_executor.hpp,
lines 230-279), selected on whether each shared argument is the
`agency::detail::ignore_t` sentinel (modelled as `none`): each overload
wraps `f` in the matching `function_with_shared_arguments` specialization
and calls `bulk_async(g, shape)`, except the both-absent overload (lines
274-279) which calls `bulk_async(f, shape)` directly with the unwrapped
function.  The value of a call is the launch plan: the function object
launched and the `(outer extent, inner extent)` shape. -/
def bulk_async_with_shared_args {F T1 T2 : Type} (f : F) (shape : ℕ × ℕ) :
    Option T1 → Option T2 → GridFunction F T1 T2 × (ℕ × ℕ)
  | some outer_shared_arg, some inner_shared_arg =>
    (GridFunction.withBoth f outer_shared_arg inner_shared_arg, shape)
  | none, some inner_shared_arg =>
    (GridFunction.withInner f inner_shared_arg, shape)
  | some outer_shared_arg, none =>
    (GridFunction.withOuter f outer_shared_arg, shape)
  | none, none => (GridFunction.plain f, shape)

/-- Embedding of `basic_grid_executor::bulk_async(f, shape)` without shared
arguments (grid_executor.hpp, lines 209-227): the unwrapped function is
launched over `shape`. -/
def bulk_async (f : F) (shape : ℕ × ℕ) : GridFunction F T1 T2 × (ℕ × ℕ) :=
  (GridFunction.plain f, shape)

/-- Embedding of the four overloads of
`basic_grid_executor::bulk_invoke_with_shared_args` (grid_executor.hpp,
lines 311-356); the wrapping is identical to the `bulk_async` path (the
both-absent overload at lines 350-356 calls `bulk_invoke(f, shape)`
directly), only the completion is synchronous. -/
def bulk_invoke_with_shared_args {F T1 T2 : Type} (f : F) (shape : ℕ × ℕ) :
    Option T1 → Option T2 → GridFunction F T1 T2 × (ℕ × ℕ)
  | some outer_shared_arg, some inner_shared_arg =>
    (GridFunction.withBoth f outer_shared_arg inner_shared_arg, shape)
  | none, some inner_shared_arg =>
    (GridFunction.withInner f inner_shared_arg, shape)
  | some outer_shared_arg, none =>
    (GridFunction.withOuter f outer_shared_arg, shape)
  | none, none => (GridFunction.plain f, shape)

/-- Embedding of `basic_grid_executor::bulk_invoke(f, shape)` without shared
arguments (grid_executor.hpp, lines 292-307). -/
def bulk_invoke (f : F) (shape : ℕ × ℕ) : GridFunction F T1 T2 × (ℕ × ℕ) :=
  (GridFunction.plain f, shape)

/-- The event trace of one inner group (thread block) of size `m` executing a
launched function object: the plain function and the outer-only wrapper
invoke `f` directly per agent with no barriers; the two wrappers with an
inner shared argument run the construct/barrier/use/barrier/destroy
protocol of `function_with_shared_arguments::operator()`. -/
def blockTrace {F T1 T2 : Type} (g : GridFunction F T1 T2) (m : ℕ) :
    List SharedEvent :=
  match g with
  | GridFunction.plain _ => function_with_shared_arguments.outerOnlyGroupTrace m
  | GridFunction.withBoth _ _ _ => function_with_shared_arguments.innerGroupTrace m
  | GridFunction.withInner _ _ => function_with_shared_arguments.innerGroupTrace m
  | GridFunction.withOuter _ _ => function_with_shared_arguments.outerOnlyGroupTrace m

/-- The event trace of a whole launch plan: one block trace per outer group
(the launch maps the outer extent to the block grid, grid_executor.hpp,
lines 405-418). -/
def launchTrace {F T1 T2 : Type} (plan : GridFunction F T1 T2 × (ℕ × ℕ)) :
    List SharedEvent :=
  (List.range plan.2.1).flatMap fun _outer => blockTrace plan.1 plan.2.2

end basic_grid_executor

namespace grid_executor

/-- Embedding of `grid_executor::max_shape` (grid_executor.hpp, lines
456-500).  The CUDA device context is threaded explicitly: `current_device`
is what `cudaGetDevice` reports on entry, and the second component of the
value is the active device when the function returns or throws.  The two
fallible hardware queries are injected: `maxBlockDimX_query` is the value
`cudaDeviceGetAttribute(cudaDevAttrMaxBlockDimX)` would report (`none` when
the call fails, making `throw_on_error` throw) and `maxThreadsPerBlock_query`
is the value `cudaFuncGetAttributes` would report for the kernel.  The code
records the current device, switches to `gpu` when they differ, performs the
two queries (each `throw_on_error` propagating an exception immediately),
switches back only after both queries succeeded, and returns
`(max_block_dimension_x, maxThreadsPerBlock)`. -/
def max_shape (gpu current_device : ℕ)
    (maxBlockDimX_query maxThreadsPerBlock_query : Option ℕ) :
    Except String (ℕ × ℕ) × ℕ :=
  let active := if current_device ≠ gpu then gpu else current_device
  match maxBlockDimX_query with
  | none =>
    (Except.error "cuda::grid_executor::max_shape(): cudaDeviceGetAttribute",
      active)
  | some max_block_dimension_x =>
    match maxThreadsPerBlock_query with
    | none =>
      (Except.error "cuda::grid_executor::max_shape(): cudaFuncGetAttributes",
        active)
    | some maxThreadsPerBlock =>
      let restored := if current_device ≠ gpu then current_device else active
      (Except.ok (max_block_dimension_x, maxThreadsPerBlock), restored)

end grid_executor

namespace flattened_grid_executor_functor

/-- Embedding of `flattened_grid_executor_functor::operator()`
(grid_executor.hpp, lines 557-578): the dispatched two-level agent with index
`idx = (outer, inner)` recomputes `flat_idx = get<0>(idx) *
get<1>(partitioning_) + get<1>(idx)` and invokes `f_(flat_idx)` only when
`flat_idx < shape_`; the value is `some flat_idx` when `f_` was invoked and
`none` when the agent silently skipped. -/
def run (shape : ℕ) (partitioning : ℕ × ℕ) (idx : ℕ × ℕ) : Option ℕ :=
  let flat_idx := idx.1 * partitioning.2 + idx.2
  if flat_idx < shape then some flat_idx else none

/-- The flat indices on which the user function is invoked when the
partitioned grid `(partitioning.1 outer groups) × (partitioning.2 inner
agents)` executes `flattened_grid_executor_functor`, listed block by block in
index order. -/
def executedFlatIndices (shape : ℕ) (partitioning : ℕ × ℕ) : List ℕ :=
  (List.range partitioning.1).flatMap fun outer =>
    (List.range partitioning.2).filterMap fun inner =>
      run shape partitioning (outer, inner)

end flattened_grid_executor_functor

namespace flattened_executor

/-- Embedding of `flattened_executor<cuda::grid_executor>::partition`
(grid_executor.hpp, lines 655-672) with `max_shape = (max outer extent, max
inner extent)` as reported by `base_executor().max_shape(f)`: the inner group
size is `get<1>(max_shape)`, the outer group count is `(shape + inner_size -
1) / inner_size`, and `assert(outer_size <= get<0>(max_shape))` aborts the
program otherwise (modelled as `none`; no fallback chunking exists). -/
def partition (max_shape : ℕ × ℕ) (shape : ℕ) : Option (ℕ × ℕ) :=
  let inner_size := max_shape.2
  let outer_size := (shape + inner_size - 1) / inner_size
  if outer_size ≤ max_shape.1 then some (outer_size, inner_size) else none

end flattened_executor

namespace copy_model

/-- Embedding of `copy_functor::operator()` (copy.hpp, lines 15-26) for the
agent of rank `i`: `result[i] = first[i]`, over a memory `mem : ℕ → α` with
iterators modelled as addresses. -/
def copy_functor {α : Type} (first result : ℕ) (i : ℕ) (mem : ℕ → α) :
    ℕ → α :=
  Function.update mem (result + i) (mem (first + i))

/-- Embedding of the random-access overload of `detail::copy` (copy.hpp,
lines 29-49): `n = last - first`, `bulk_invoke(policy(n), copy_functor(),
first, result)` runs one agent per rank `i < n`, each assigning `result[i] =
first[i]` (the agents write disjoint addresses, so the order of the fold is
immaterial for non-overlapping ranges), and the function returns `last + n` —
the iterator expression literally written in the source's `return`
statement. -/
def copy_random_access {α : Type} (first last result : ℕ) (mem : ℕ → α) :
    (ℕ → α) × ℕ :=
  let n := last - first
  (((List.range n).foldl (fun m i => copy_functor first result i m) mem),
    last + n)

/-- The loop of the sequenced overload of `detail::copy` (copy.hpp, lines
65-75): `for(; first != last; ++first, ++result) *result = *first;`, with
the remaining trip count `last - first` as the recursion measure; returns
the final memory and the final value of `result`. -/
def copy_sequenced_loop {α : Type} (first result : ℕ) :
    ℕ → (ℕ → α) → (ℕ → α) × ℕ
  | 0, mem => (mem, result)
  | k + 1, mem =>
    copy_sequenced_loop (first + 1) (result + 1) k
      (Function.update mem result (mem first))

/-- Embedding of the sequenced overload of `detail::copy` (copy.hpp, lines
52-75): copies `*first` to `*result` one element at a time, incrementing
both iterators, and returns the advanced `result` iterator. -/
def copy_sequenced {α : Type} (first last result : ℕ) (mem : ℕ → α) :
    (ℕ → α) × ℕ :=
  copy_sequenced_loop first result (last - first) mem

end copy_model

/-- Boolean test for `SharedEvent.use` (instrumentation helper). -/
def SharedEvent.isUse : SharedEvent → Bool
  | SharedEvent.use _ => true
  | _ => false

namespace bulk_continuation_executor

lemma interleave_perm {α : Type} {l r s : List α} (h : Interleave l r s) :
    s.Perm (l ++ r) := by
  induction h with
  | nil => exact List.Perm.refl _
  | left _ ih => exact ih.cons _
  | right _ ih => exact (ih.cons _).trans List.perm_middle.symm

lemma interleave3_perm {α : Type} {l m r s : List α}
    (h : Interleave3 l m r s) : s.Perm (l ++ r ++ m) := by
  obtain ⟨t, h1, h2⟩ := h
  exact (interleave_perm h2).trans ((interleave_perm h1).append_right m)

lemma fjsched_nil {first last : ℕ} {s : List ℕ} (h : FJSched first last s)
    (hle : last ≤ first) : s = [] := by
  cases h with
  | empty _ => rfl
  | node hlt _ _ _ => omega

lemma fjsched_perm {first last : ℕ} {s : List ℕ} (h : FJSched first last s) :
    s.Perm (List.range' first (last - first)) := by
  induction h with
  | empty hle =>
    simp [Nat.sub_eq_zero_of_le hle]
  | node hlt h1 h2 hint ihl ihr =>
    rename_i first last l r s
    set mid := (first + last) / 2 with hmid
    have hfm : first ≤ mid := by
      rw [hmid, Nat.le_div_iff_mul_le (by norm_num : 0 < 2)]
      omega
    have hml : mid < last := by
      rw [hmid, Nat.div_lt_iff_lt_mul (by norm_num : 0 < 2)]
      omega
    set A := List.range' first (mid - first) with hA
    set B := List.range' (mid + 1) (last - (mid + 1)) with hB
    have hsplit : List.range' first (last - first) = A ++ mid :: B := by
      have hc : mid :: B = List.range' mid (last - (mid + 1) + 1) := by
        rw [hB, List.range'_succ]
      rw [hc, hA]
      have h5 := List.range'_append first (mid - first)
        (last - (mid + 1) + 1) 1
      have h6 : first + 1 * (mid - first) = mid := by omega
      have h7 : last - (mid + 1) + 1 + (mid - first) = last - first := by
        omega
      rw [h6, h7] at h5
      exact h5.symm
    rw [hsplit]
    have hp : s.Perm (l ++ r ++ [mid]) := interleave3_perm hint
    have hlr : (l ++ r ++ [mid]).Perm (A ++ B ++ [mid]) :=
      (ihl.append ihr).append_right [mid]
    have hmove : (B ++ [mid]).Perm (mid :: B) := by
      simp
    have hfin : (A ++ B ++ [mid]).Perm (A ++ mid :: B) := by
      rw [List.append_assoc]
      exact List.Perm.append_left A hmove
    exact hp.trans (hlr.trans hfin)

lemma fjsched_perm_range {n : ℕ} {s : List ℕ} (h : FJSched 0 n s) :
    s.Perm (List.range n) := by
  have := fjsched_perm h
  simpa [List.range_eq_range'] using this

end bulk_continuation_executor

namespace flattened_grid_executor_functor

lemma filterMap_guard (n a : ℕ) : ∀ m : ℕ,
    ((List.range m).filterMap fun inner =>
        if a + inner < n then some (a + inner) else none)
      = List.range' a (min m (n - a)) := by
  intro m
  induction m with
  | zero => simp
  | succ m ih =>
    rw [List.range_succ, List.filterMap_append, ih]
    by_cases hc : a + m < n
    · have h1 : min m (n - a) = m := by omega
      have h2 : min (m + 1) (n - a) = m + 1 := by omega
      rw [h1, h2]
      simp [hc, List.range'_concat]
    · have h1 : min (m + 1) (n - a) = min m (n - a) := by omega
      rw [h1]
      simp [hc]

lemma executedBlocks (n q k : ℕ) : ∀ c : ℕ,
    ((List.range c).flatMap fun outer =>
        (List.range k).filterMap fun inner => run n (q, k) (outer, inner))
      = List.range (min n (c * k)) := by
  intro c
  induction c with
  | zero => simp
  | succ c ih =>
    rw [List.range_succ, List.flatMap_append, ih]
    have hrun : ((List.range k).filterMap fun inner =>
        run n (q, k) (c, inner))
        = List.range' (c * k) (min k (n - c * k)) := by
      rw [← filterMap_guard n (c * k) k]
      simp [run]
    simp only [List.flatMap_cons, List.flatMap_nil, List.append_nil]
    rw [hrun]
    by_cases hc : n ≤ c * k
    · have h1 : min n (c * k) = n := by omega
      have h2 : min k (n - c * k) = 0 := by omega
      have h3 : min n ((c + 1) * k) = n := by
        have h4 : (c + 1) * k = c * k + k := by
          rw [Nat.add_mul, Nat.one_mul]
        omega
      rw [h1, h2, h3]
      simp
    · have h1 : min n (c * k) = c * k := by omega
      rw [h1]
      have h2 := List.range'_append 0 (c * k) (min k (n - c * k)) 1
      simp only [Nat.zero_add, Nat.one_mul] at h2
      rw [List.range_eq_range', List.range_eq_range', h2]
      have h3 : min k (n - c * k) + c * k = min n ((c + 1) * k) := by
        have h4 : (c + 1) * k = c * k + k := by
          rw [Nat.add_mul, Nat.one_mul]
        omega
      rw [h3]

/-- Ceiling division fact: `n ≤ ((n + k - 1) / k) * k` for `k > 0`. -/
lemma le_ceil_mul {k : ℕ} (hk : 0 < k) (n : ℕ) :
    n ≤ ((n + k - 1) / k) * k := by
  have h1 := (Nat.div_le_iff_le_mul_add_pred hk
    (a := n + k - 1) (c := (n + k - 1) / k)).1 (Nat.le_refl _)
  have h2 : k * ((n + k - 1) / k) = ((n + k - 1) / k) * k := Nat.mul_comm _ _
  omega

end flattened_grid_executor_functor

namespace function_with_shared_arguments

lemma filterMap_ifZero {β : Type} (g : ℕ → β) {m : ℕ} (hm : 1 ≤ m) :
    ((List.range m).filterMap fun j => if j = 0 then some (g j) else none)
      = [g 0] := by
  obtain ⟨t, rfl⟩ : ∃ t, m = t + 1 := ⟨m - 1, by omega⟩
  rw [List.range_succ_eq_map, List.filterMap_cons]
  simp [List.filterMap_map, Function.comp]

end function_with_shared_arguments

namespace bulk_synchronous_executor

lemma foldl_update_apply (n : ℕ) (m0 : ℕ → ℕ) (u : Unit) :
    ∀ i, i < n →
      (((List.range n).foldl
          (fun st j => (Function.update st.1 j j, st.2)) (m0, u)).1) i = i := by
  induction n with
  | zero => intro i h; omega
  | succ n ih =>
    intro i h
    rw [List.range_succ, List.foldl_append]
    simp only [List.foldl_cons, List.foldl_nil]
    by_cases hi : i = n
    · subst hi
      simp
    · have h2 : i < n := by omega
      simp [Function.update_noteq hi]
      exact ih i h2

end bulk_synchronous_executor

namespace bulk_continuation_executor

lemma fjsched_zero_one : FJSched 0 1 [0] :=
  FJSched.node (by norm_num)
    (FJSched.empty (Nat.le_refl 0))
    (FJSched.empty (Nat.le_refl 1))
    ⟨[], Interleave.nil, Interleave.right Interleave.nil⟩

lemma fjsched_two_one_zero : FJSched 0 2 [1, 0] :=
  FJSched.node (by norm_num)
    fjsched_zero_one
    (FJSched.empty (Nat.le_refl 2))
    ⟨[0], Interleave.left Interleave.nil,
      Interleave.right (Interleave.left Interleave.nil)⟩

end bulk_continuation_executor

/-- C1: for every flat extent `n ≥ 0` dispatched through the flattened
executor over the grid executor with inner group size `k > 0` and outer
group count `(n + k - 1) / k` (the adapter's partitioning), each two-level
agent `(outer, inner)` recomputes its flat index as `outer * k + inner` and
invokes the user function only when that flat index is `< n`; the list of
flat indices on which the user function is invoked is exactly `[0, …, n-1]`,
each exactly once, with no duplicates. -/
theorem flattened_executor_runs_each_flat_index_once (n k : ℕ) (hk : 0 < k) :
    flattened_grid_executor_functor.executedFlatIndices n ((n + k - 1) / k, k)
      = List.range n
    ∧ ∀ outer inner : ℕ,
        flattened_grid_executor_functor.run n ((n + k - 1) / k, k)
            (outer, inner)
          = if outer * k + inner < n then some (outer * k + inner)
            else none := by
  constructor
  · have h1 := flattened_grid_executor_functor.executedBlocks n
      ((n + k - 1) / k) k ((n + k - 1) / k)
    have h2 : min n (((n + k - 1) / k) * k) = n := by
      have := flattened_grid_executor_functor.le_ceil_mul hk n
      omega
    rw [flattened_grid_executor_functor.executedFlatIndices, h1, h2]
  · intro outer inner
    rfl

/-- C1 witness: at `n = 5`, `k = 2` the partitioning is `(3, 2)` and the
executed flat indices are exactly `[0, 1, 2, 3, 4]`; agent `(2, 0)` of the
final group recomputes flat index `4 < 5` and runs, by the main theorem
applied at these inputs. -/
theorem flattened_executor_runs_each_flat_index_once_witness :
    flattened_grid_executor_functor.executedFlatIndices 5 ((5 + 2 - 1) / 2, 2)
      = List.range 5
    ∧ flattened_grid_executor_functor.run 5 ((5 + 2 - 1) / 2, 2) (2, 0)
      = if 2 * 2 + 0 < 5 then some (2 * 2 + 0) else none :=
  ⟨(flattened_executor_runs_each_flat_index_once 5 2 (by norm_num)).1,
    (flattened_executor_runs_each_flat_index_once 5 2 (by norm_num)).2 2 0⟩

/-- C7: for every flat extent `n` the flattened executor's partitioner sets
the inner-group size to the inner component `k` of `max_shape` and the
outer-group count to `(n + k - 1) / k`, which is exactly `ceil(n / k)` (it
is the least `c` with `n ≤ c * k`); when the outer count exceeds the outer
component of `max_shape` the `assert` fails fatally (modelled `none`) and no
multi-launch chunking is performed. -/
theorem partition_inner_max_outer_ceil (max_outer k n : ℕ) (hk : 0 < k) :
    flattened_executor.partition (max_outer, k) n
      = (if (n + k - 1) / k ≤ max_outer then some ((n + k - 1) / k, k)
        else none)
    ∧ n ≤ ((n + k - 1) / k) * k
    ∧ ∀ c : ℕ, n ≤ c * k → (n + k - 1) / k ≤ c := by
  refine ⟨rfl, flattened_grid_executor_functor.le_ceil_mul hk n, ?_⟩
  intro c hc
  rw [Nat.div_le_iff_le_mul_add_pred hk]
  have h1 : k * c = c * k := Nat.mul_comm k c
  omega

/-- C7 witness: at `max_shape = (10, 4)` and `n = 9` the partitioner
returns `some ((9 + 4 - 1) / 4, 4) = some (3, 4)`, which covers the
iteration space (`9 ≤ 3 * 4`), by the main theorem applied at these
inputs. -/
theorem partition_inner_max_outer_ceil_witness :
    flattened_executor.partition (10, 4) 9
      = (if (9 + 4 - 1) / 4 ≤ 10 then some ((9 + 4 - 1) / 4, 4) else none)
    ∧ 9 ≤ ((9 + 4 - 1) / 4) * 4 :=
  ⟨(partition_inner_max_outer_ceil 10 4 9 (by norm_num)).1,
    (partition_inner_max_outer_ceil 10 4 9 (by norm_num)).2.1⟩

/-- C10 (code bug): at `first = 0`, `last = 2`, `result = 10` over the
memory `mem a = a` (so `n = 2`), the random-access overload of
`detail::copy` performs the correct writes (`result[0] = first[0]`,
`result[1] = first[1]`, i.e. addresses 10 and 11 receive 0 and 1) but
returns `last + n = 4`, an iterator into the input range, instead of
`result + n = 12` — which the sequenced overload correctly returns and
which the declared return type `RandomAccessIterator2` of the source calls
for. -/
theorem copy_random_access_return_value_bug :
    (copy_model.copy_random_access 0 2 10 (fun a => a)).2 = 4
    ∧ (copy_model.copy_sequenced 0 2 10 (fun a => a)).2 = 12
    ∧ (copy_model.copy_random_access 0 2 10 (fun a => a)).1 10 = 0
    ∧ (copy_model.copy_random_access 0 2 10 (fun a => a)).1 11 = 1
    ∧ (copy_model.copy_random_access 0 2 10 (fun a => a)).2 ≠ 10 + 2 :=
  ⟨by decide, by decide, by decide, by decide, by decide⟩

/-- C5 counterexample: with the executor's device `1`, the active device `0`
on entry, and a failing `cudaDeviceGetAttribute` query, `max_shape` throws
after having switched the active device to `1` and leaves it there: the
prior active device `0` is not restored on the error path. -/
theorem max_shape_error_path_leaves_device :
    grid_executor.max_shape 1 0 none (some 1024)
      = (Except.error
          "cuda::grid_executor::max_shape(): cudaDeviceGetAttribute", 1)
    ∧ (1 : ℕ) ≠ 0 :=
  ⟨rfl, by norm_num⟩

/-- C5 (amended): `max_shape` restores the previously active device before
returning on the success path — when both the device-attribute query and the
function-attribute query succeed, the active device on return equals the
active device on entry, whether or not it was transiently retargeted; but on
the path where a query fails and an exception is thrown, the executor's
device is left active (see the counterexample). -/
theorem max_shape_restores_device_on_success
    (gpu current_device max_block_dimension_x maxThreadsPerBlock : ℕ) :
    grid_executor.max_shape gpu current_device
        (some max_block_dimension_x) (some maxThreadsPerBlock)
      = (Except.ok (max_block_dimension_x, maxThreadsPerBlock),
        current_device) := by
  unfold grid_executor.max_shape
  by_cases h : current_device ≠ gpu <;> simp [h]

/-- C3: for every `n > 0`, the continuation executor's recursive fork-join
partitions `[0, n)` at `mid = n / 2`, spawns a background task for the left
half `[0, mid)` only when it is non-empty (an empty left half contributes the
empty schedule), spawns a background task for the right half `[mid + 1, n)`
only when it is non-empty, invokes the midpoint agent directly in the current
task, and waits on both sub-futures before the returned future becomes ready;
consequently every schedule the fork-join can produce invokes every index in
`[0, n)` exactly once (it is a permutation of `0, …, n-1`) and the counter of
completed invocations reaches exactly `n` before the future resolves. -/
theorem bulk_then_execute_fork_join_complete (n : ℕ) (hn : 0 < n)
    (s : List ℕ) (hs : bulk_continuation_executor.FJSched 0 n s) :
    s.Perm (List.range n) ∧ s.length = n
    ∧ ∃ l r,
        bulk_continuation_executor.FJSched 0 (n / 2) l
        ∧ bulk_continuation_executor.FJSched (n / 2 + 1) n r
        ∧ bulk_continuation_executor.Interleave3 l [n / 2] r s
        ∧ (n / 2 = 0 → l = [])
        ∧ (n ≤ n / 2 + 1 → r = []) := by
  have hperm := bulk_continuation_executor.fjsched_perm_range hs
  have hlen : s.length = n := by
    have h1 := hperm.length_eq
    simpa using h1
  refine ⟨hperm, hlen, ?_⟩
  cases hs with
  | empty hle => omega
  | node hlt hl hr hint =>
    rename_i l r
    rw [Nat.zero_add] at hl hr hint
    exact ⟨l, r, hl, hr, hint,
      fun h0 => bulk_continuation_executor.fjsched_nil hl (by omega),
      fun h0 => bulk_continuation_executor.fjsched_nil hr (by omega)⟩

/-- C3 witness: at `n = 1` the only schedule is `[0]` (midpoint `0` invoked
directly, no task spawned for either empty half); the main theorem applied
at `n = 1`, schedule `[0]`, yields that it is a permutation of `range 1` of
length `1`. -/
theorem bulk_then_execute_fork_join_complete_witness :
    ([0] : List ℕ).Perm (List.range 1) ∧ ([0] : List ℕ).length = 1 :=
  ⟨(bulk_then_execute_fork_join_complete 1 (by norm_num) [0]
      bulk_continuation_executor.fjsched_zero_one).1,
    (bulk_then_execute_fork_join_complete 1 (by norm_num) [0]
      bulk_continuation_executor.fjsched_zero_one).2.1⟩

/-- C4: in the shared-state marshaling protocol, for every inner group of
size `m ≥ 1`, exactly one designated agent — the one whose inner index is
`0` — constructs the inner shared object; a barrier separates construction
from every agent's use of the object (the invocations of `f`); a second
barrier separates every use from destruction; and the same designated agent
`0` destroys the object.  The block trace is literally: one construction by
agent `0`, a barrier, the `m` uses, a barrier, one destruction by agent `0`;
in particular there is exactly one construction, exactly one destruction,
and `m` uses per inner group. -/
theorem inner_shared_single_construction (m : ℕ) (hm : 1 ≤ m) :
    function_with_shared_arguments.innerGroupTrace m
      = SharedEvent.construct 0 :: SharedEvent.barrier ::
          ((List.range m).map SharedEvent.use
            ++ SharedEvent.barrier :: [SharedEvent.destroy 0])
    ∧ (function_with_shared_arguments.innerGroupTrace m).countP
        SharedEvent.isConstruct = 1
    ∧ (function_with_shared_arguments.innerGroupTrace m).countP
        SharedEvent.isDestroy = 1
    ∧ (function_with_shared_arguments.innerGroupTrace m).countP
        SharedEvent.isUse = m := by
  have h1 := function_with_shared_arguments.filterMap_ifZero
    (fun j => SharedEvent.construct j) hm
  have h2 := function_with_shared_arguments.filterMap_ifZero
    (fun j => SharedEvent.destroy j) hm
  have htrace : function_with_shared_arguments.innerGroupTrace m
      = SharedEvent.construct 0 :: SharedEvent.barrier ::
          ((List.range m).map SharedEvent.use
            ++ SharedEvent.barrier :: [SharedEvent.destroy 0]) := by
    rw [function_with_shared_arguments.innerGroupTrace, h1, h2]
    simp
  refine ⟨htrace, ?_, ?_, ?_⟩ <;>
    rw [htrace] <;>
    simp [List.countP_cons, List.countP_append, List.countP_map,
      Function.comp_def, SharedEvent.isConstruct, SharedEvent.isDestroy,
      SharedEvent.isUse]

/-- C4 witness: at inner-group size `m = 3` the block trace is the
construction by agent `0`, a barrier, the three uses, a barrier and the
destruction by agent `0`, with the counts `1`, `1`, `3`, by the main theorem
applied at `m = 3`. -/
theorem inner_shared_single_construction_witness :
    function_with_shared_arguments.innerGroupTrace 3
      = SharedEvent.construct 0 :: SharedEvent.barrier ::
          ((List.range 3).map SharedEvent.use
            ++ SharedEvent.barrier :: [SharedEvent.destroy 0])
    ∧ (function_with_shared_arguments.innerGroupTrace 3).countP
        SharedEvent.isConstruct = 1
    ∧ (function_with_shared_arguments.innerGroupTrace 3).countP
        SharedEvent.isDestroy = 1
    ∧ (function_with_shared_arguments.innerGroupTrace 3).countP
        SharedEvent.isUse = 3 :=
  inner_shared_single_construction 3 (by norm_num)

/-- C6 (amended): for every count `n ≥ 0`, `bulk_execute` and
`bulk_async_execute` invoke the result factory exactly once and the shared
factory exactly once per call; `bulk_then_execute` invokes the result
factory exactly once per call, but invokes the shared factory exactly once
only when `n > 0` — on the `n = 0` short-circuit path it returns
`make_ready_future(result_factory(n))` and never calls the shared factory
(see the counterexample). -/
theorem factory_invocation_counts {ρ σ : Type} (f : ℕ → ρ × σ → ρ × σ)
    (n : ℕ) (rf : ℕ → ρ) (sf : ℕ → σ) (s : List ℕ) :
    (bulk_synchronous_executor.bulk_execute f n rf sf).2.countP
        Event.isResultFactoryCall = 1
    ∧ (bulk_synchronous_executor.bulk_execute f n rf sf).2.countP
        Event.isSharedFactoryCall = 1
    ∧ (bulk_asynchronous_executor.bulk_async_execute f n rf sf).2.countP
        Event.isResultFactoryCall = 1
    ∧ (bulk_asynchronous_executor.bulk_async_execute f n rf sf).2.countP
        Event.isSharedFactoryCall = 1
    ∧ (bulk_continuation_executor.bulk_then_execute f n rf sf s).2.countP
        Event.isResultFactoryCall = 1
    ∧ (bulk_continuation_executor.bulk_then_execute f n rf sf s).2.countP
        Event.isSharedFactoryCall = (if 0 < n then 1 else 0) := by
  refine ⟨?_, ?_, ?_, ?_, ?_, ?_⟩ <;>
    by_cases hn : 0 < n <;>
    simp [bulk_synchronous_executor.bulk_execute,
      bulk_asynchronous_executor.bulk_async_execute,
      bulk_continuation_executor.bulk_then_execute, hn,
      List.countP_cons, List.countP_map, Function.comp_def,
      Event.isResultFactoryCall, Event.isSharedFactoryCall]

/-- C6 counterexample: at `n = 0` the continuation executor's
`bulk_then_execute` (whose only valid fork-join schedule is the empty one)
calls the shared factory zero times, not once: the claim fails for the
`bulk_then_execute` entry point at `n = 0`. -/
theorem bulk_then_execute_zero_shared_factory_skipped :
    bulk_continuation_executor.FJSched 0 0 []
    ∧ (bulk_continuation_executor.bulk_then_execute
        (fun (_ : ℕ) (st : ℕ × ℕ) => st) 0
        (fun _ => (0 : ℕ)) (fun _ => (0 : ℕ)) []).2.countP
        Event.isSharedFactoryCall = 0
    ∧ (0 : ℕ) ≠ 1 :=
  ⟨bulk_continuation_executor.FJSched.empty (Nat.le_refl 0),
    by decide, by norm_num⟩

/-- C8: for every `n ≥ 0` and the identity-style function
`f(i, result) = (result[i] = i)`, the synchronous reference executor's
`bulk_execute` produces a result with `result[i] = i` for every `i < n`,
and `f` is invoked exactly `n` times. -/
theorem bulk_execute_identity_result (n : ℕ) :
    ((bulk_synchronous_executor.bulk_execute
        (fun i st => (Function.update st.1 i i, st.2)) n
        (fun _ => fun _ => (0 : ℕ)) (fun _ => ())).2.countP Event.isInvoke
      = n)
    ∧ ∀ i, i < n →
        (bulk_synchronous_executor.bulk_execute
          (fun i st => (Function.update st.1 i i, st.2)) n
          (fun _ => fun _ => (0 : ℕ)) (fun _ => ())).1 i = i := by
  constructor
  · simp [bulk_synchronous_executor.bulk_execute, List.countP_cons,
      List.countP_map, Function.comp_def, Event.isInvoke]
  · intro i hi
    exact bulk_synchronous_executor.foldl_update_apply n
      (fun _ => (0 : ℕ)) () i hi

/-- C8 witness: at `n = 3` the trace holds exactly `3` invocations and the
result maps index `1` to `1`, by the main theorem applied at `n = 3` and
`i = 1`. -/
theorem bulk_execute_identity_result_witness :
    ((bulk_synchronous_executor.bulk_execute
        (fun i st => (Function.update st.1 i i, st.2)) 3
        (fun _ => fun _ => (0 : ℕ)) (fun _ => ())).2.countP Event.isInvoke
      = 3)
    ∧ (bulk_synchronous_executor.bulk_execute
        (fun i st => (Function.update st.1 i i, st.2)) 3
        (fun _ => fun _ => (0 : ℕ)) (fun _ => ())).1 1 = 1 :=
  ⟨(bulk_execute_identity_result 3).1,
    (bulk_execute_identity_result 3).2 1 (by norm_num)⟩

/-- C9: calling the grid executor's shared-argument bulk entry points with
both shared arguments equal to the explicit absent sentinel produces exactly
the launch plan of the corresponding no-shared-argument entry point with the
same `f` and shape — the unwrapped function over the same shape, so the same
indices are executed and the same result produced — and the launch's event
trace contains no barrier and no shared-object construction or destruction:
every block event is a direct invocation of `f`. -/
theorem absent_shared_args_same_as_plain {F T1 T2 : Type} (f : F)
    (shape : ℕ × ℕ) :
    @basic_grid_executor.bulk_async_with_shared_args F T1 T2 f shape none none
      = @basic_grid_executor.bulk_async F T1 T2 f shape
    ∧ @basic_grid_executor.bulk_invoke_with_shared_args F T1 T2 f shape
        none none
      = @basic_grid_executor.bulk_invoke F T1 T2 f shape
    ∧ (basic_grid_executor.launchTrace
        (@basic_grid_executor.bulk_async_with_shared_args F T1 T2 f shape
          none none)).countP SharedEvent.isBarrier = 0
    ∧ (basic_grid_executor.launchTrace
        (@basic_grid_executor.bulk_async_with_shared_args F T1 T2 f shape
          none none)).countP SharedEvent.isConstruct = 0
    ∧ (basic_grid_executor.launchTrace
        (@basic_grid_executor.bulk_async_with_shared_args F T1 T2 f shape
          none none)).countP SharedEvent.isDestroy = 0 := by
  refine ⟨rfl, rfl, ?_, ?_, ?_⟩ <;>
    · rw [List.countP_eq_zero]
      intro a ha
      simp only [basic_grid_executor.bulk_async_with_shared_args,
        basic_grid_executor.launchTrace, basic_grid_executor.blockTrace,
        function_with_shared_arguments.outerOnlyGroupTrace,
        List.mem_flatMap, List.mem_map] at ha
      obtain ⟨outer, _houter, j, _hj, rfl⟩ := ha
      simp [SharedEvent.isBarrier, SharedEvent.isConstruct,
        SharedEvent.isDestroy]

/-- C2 counterexample: the three bulk entry points do not produce the same
final result for every `f`.  With the order-sensitive function
`f i (result, shared) = (2 * result + i, shared)`, `n = 2` and zero-valued
factories, `[1, 0]` is a valid fork-join schedule of the continuation
executor (the spawned left task for `[0, 1)` runs after the current task's
midpoint agent `1`), and on it `bulk_then_execute` yields result `2` while
the synchronous `bulk_execute` (loop order `0, 1`) yields `1`. -/
theorem reference_executors_schedule_dependent :
    bulk_continuation_executor.FJSched 0 2 [1, 0]
    ∧ (bulk_continuation_executor.bulk_then_execute
        (fun i (st : ℕ × ℕ) => (2 * st.1 + i, st.2)) 2
        (fun _ => (0 : ℕ)) (fun _ => (0 : ℕ)) [1, 0]).1
      ≠ (bulk_synchronous_executor.bulk_execute
        (fun i (st : ℕ × ℕ) => (2 * st.1 + i, st.2)) 2
        (fun _ => (0 : ℕ)) (fun _ => (0 : ℕ))).1 :=
  ⟨bulk_continuation_executor.fjsched_two_one_zero, by decide⟩

/-- C2 (amended): for every `f`, `n`, result factory and shared factory
(and an already-satisfied predecessor for the continuation variant), all
three bulk entry points invoke `f` on every index in `[0, n)` exactly once —
the synchronous and asynchronous executors in loop order, the continuation
executor in some fork-join schedule order, always a permutation of
`0, …, n-1`; and whenever the per-index state updates of `f` commute
pairwise (in particular whenever each invocation only touches data of its
own index, the data-race-freedom precondition for the concurrent variants),
the three entry points produce the same final result value.  For
order-sensitive `f` the continuation executor's result depends on the
schedule and can differ from the synchronous result (see the
counterexample). -/
theorem reference_executors_equivalent_of_commutative {ρ σ : Type}
    (f : ℕ → ρ × σ → ρ × σ) (n : ℕ) (rf : ℕ → ρ) (sf : ℕ → σ)
    (s : List ℕ) (hs : bulk_continuation_executor.FJSched 0 n s)
    (hcomm : ∀ i j st, f i (f j st) = f j (f i st)) :
    (bulk_synchronous_executor.bulk_execute f n rf sf).2.filter
        Event.isInvoke = (List.range n).map Event.invoke
    ∧ (bulk_asynchronous_executor.bulk_async_execute f n rf sf).2.filter
        Event.isInvoke = (List.range n).map Event.invoke
    ∧ (bulk_continuation_executor.bulk_then_execute f n rf sf s).2.filter
        Event.isInvoke = s.map Event.invoke
    ∧ s.Perm (List.range n)
    ∧ (bulk_asynchronous_executor.bulk_async_execute f n rf sf).1
        = (bulk_synchronous_executor.bulk_execute f n rf sf).1
    ∧ (bulk_continuation_executor.bulk_then_execute f n rf sf s).1
        = (bulk_synchronous_executor.bulk_execute f n rf sf).1 := by
  have hperm := bulk_continuation_executor.fjsched_perm_range hs
  refine ⟨?_, ?_, ?_, hperm, rfl, ?_⟩
  · simp [bulk_synchronous_executor.bulk_execute, Event.isInvoke,
      List.filter_map, Function.comp_def, List.filter_true]
  · simp [bulk_asynchronous_executor.bulk_async_execute, Event.isInvoke,
      List.filter_map, Function.comp_def, List.filter_true]
  · by_cases hn : 0 < n
    · simp [bulk_continuation_executor.bulk_then_execute, hn,
        Event.isInvoke, List.filter_map, Function.comp_def,
        List.filter_true]
    · have hs0 : s = [] := bulk_continuation_executor.fjsched_nil hs
        (by omega)
      subst hs0
      simp [bulk_continuation_executor.bulk_then_execute, hn,
        Event.isInvoke]
  · by_cases hn : 0 < n
    · have hfold : s.foldl (fun st i => f i st) (rf n, sf n)
          = (List.range n).foldl (fun st i => f i st) (rf n, sf n) :=
        hperm.foldl_eq' (fun x _hx y _hy z => hcomm y x z) (rf n, sf n)
      simp only [bulk_continuation_executor.bulk_then_execute,
        bulk_synchronous_executor.bulk_execute, hn, if_true]
      rw [hfold]
    · have hn0 : n = 0 := by omega
      subst hn0
      simp [bulk_continuation_executor.bulk_then_execute,
        bulk_synchronous_executor.bulk_execute]

/-- C2 witness: with the commuting function
`f i (result, shared) = (result + i, shared)`, `n = 2`, zero-valued
factories, and the valid fork-join schedule `[1, 0]`, the continuation
executor's result equals the synchronous executor's result and the schedule
invokes each of the indices `0, 1` exactly once, by the main theorem applied
at these inputs. -/
theorem reference_executors_equivalent_witness :
    (bulk_continuation_executor.bulk_then_execute
        (fun i (st : ℕ × ℕ) => (st.1 + i, st.2)) 2
        (fun _ => (0 : ℕ)) (fun _ => (0 : ℕ)) [1, 0]).1
      = (bulk_synchronous_executor.bulk_execute
        (fun i (st : ℕ × ℕ) => (st.1 + i, st.2)) 2
        (fun _ => (0 : ℕ)) (fun _ => (0 : ℕ))).1
    ∧ ([1, 0] : List ℕ).Perm (List.range 2) :=
  ⟨(reference_executors_equivalent_of_commutative
      (fun i (st : ℕ × ℕ) => (st.1 + i, st.2)) 2
      (fun _ => (0 : ℕ)) (fun _ => (0 : ℕ)) [1, 0]
      bulk_continuation_executor.fjsched_two_one_zero
      (fun i j st => by dsimp only; rw [Nat.add_right_comm])).2.2.2.2.2,
    (reference_executors_equivalent_of_commutative
      (fun i (st : ℕ × ℕ) => (st.1 + i, st.2)) 2
      (fun _ => (0 : ℕ)) (fun _ => (0 : ℕ)) [1, 0]
      bulk_continuation_executor.fjsched_two_one_zero
      (fun i j st => by dsimp only; rw [Nat.add_right_comm])).2.2.2.1⟩
